import Mathlib

/-!
Shallow embedding of the CasperFlow remittance contract
(src/contracts/src/{errors,remittance,storage,utils,entry_points}.rs).

Modelling conventions:
* `U512` amounts are `Nat` together with explicit `< 2 ^ 512` overflow checks
  wherever the source uses `checked_add` / `checked_mul` / `checked_sub`;
  `u64` values use `< 2 ^ 64`.
* Principals (`AccountHash`) are `Nat`; the all-zero account hash is `0`.
* Strings are `List Char`; Rust's `str::trim` is `trimChars`.
* Casper's `runtime::revert` aborts the deploy and rolls back every storage
  write, so each entry point is a function
  `State → args → Except Error (State × List Effect)`; an `Except.error`
  leaves no successor state.  The `List Effect` records, in program order,
  the persisted dictionary writes and the external transfers that the entry
  point issues, which is what the commit-before-transfer claims are about.
* The `user_remittances` / `recipient_remittances` index dictionaries and the
  emitted events are not modelled: no claim mentions them.
-/

/-- Upper bound (exclusive) of the `U512` type, written as a numeral so that
concrete states evaluate by kernel reduction; `U512_LIMIT_eq` checks it is
`2 ^ 512`. -/
def U512_LIMIT : Nat := 13407807929942597099574024998205846127479365820592393377723561443721764030073546976801874298166903427690031858186486050853753882811946569946433649006084096

/-- Upper bound (exclusive) of the `u64` type: `2 ^ 64` as a numeral. -/
def U64_LIMIT : Nat := 18446744073709551616

/-- `MAX_PURPOSE_LENGTH` from errors.rs. -/
def MAX_PURPOSE_LENGTH : Nat := 256

/-- `MAX_FEE_BPS` from errors.rs (5% = 500 bps). -/
def MAX_FEE_BPS : Nat := 500

/-- `DEFAULT_FEE_BPS` from errors.rs / storage.rs `initialize_contract`. -/
def DEFAULT_FEE_BPS : Nat := 50

/-- The contract error enum from errors.rs (discriminants preserved). -/
inductive Error where
  | RemittanceNotFound
  | Unauthorized
  | InvalidTargetAmount
  | InvalidContributionAmount
  | AlreadyReleased
  | RemittanceCancelled
  | TargetNotMet
  | PurposeMaxLength
  | InvalidRecipient
  | RefundAlreadyClaimed
  | NoContribution
  | NotCancelled
  | ContractPaused
  | FeeTooHigh
  | TransferFailed
  | ArithmeticOverflow
  | StorageError
  | InvalidAccountHash
  | MissingArgument
  deriving DecidableEq, Repr

/-- Principals (Casper `AccountHash`); the zero account hash is `0`. -/
abbrev Principal := Nat

/-- The `Remittance` struct from remittance.rs. -/
structure Remittance where
  id : Nat
  creator : Principal
  recipient : Principal
  target_amount : Nat
  current_amount : Nat
  purpose : List Char
  created_at : Nat
  is_released : Bool
  is_cancelled : Bool
  deriving DecidableEq, Repr

/-- `Remittance::new` from remittance.rs: fresh record with
`current_amount = 0` and both flags `false`. -/
def Remittance.new (id : Nat) (creator recipient : Principal) (target_amount : Nat)
    (purpose : List Char) (created_at : Nat) : Remittance :=
  { id := id, creator := creator, recipient := recipient,
    target_amount := target_amount, current_amount := 0,
    purpose := purpose, created_at := created_at,
    is_released := false, is_cancelled := false }

/-- `Remittance::is_active`: neither released nor cancelled. -/
def Remittance.is_active (r : Remittance) : Bool :=
  !r.is_released && !r.is_cancelled

/-- `Remittance::is_target_met`: `current_amount >= target_amount`. -/
def Remittance.is_target_met (r : Remittance) : Bool :=
  decide (r.target_amount ≤ r.current_amount)

/-- `U512::as_u64` from the `uint` crate backing `casper_types::U512`:
returns the low word when the value fits in 64 bits and panics
(`none`, i.e. the host traps) otherwise.  It does NOT truncate. -/
def as_u64 (n : Nat) : Option Nat :=
  if n < U64_LIMIT then some n else none

/-- Rust `u64::saturating_mul`: clamps the product at `u64::MAX`. -/
def u64_saturating_mul (a b : Nat) : Nat :=
  min (a * b) (U64_LIMIT - 1)

/-- `Remittance::progress_percentage` from remittance.rs: returns 100 for a
zero target, otherwise converts both amounts with `as_u64` (panic — `none` —
when a value does not fit in 64 bits) and computes
`min (current.saturating_mul 100 / target) 100` in `u64` arithmetic. -/
def Remittance.progress_percentage (r : Remittance) : Option Nat :=
  if r.target_amount = 0 then some 100
  else
    match as_u64 r.current_amount with
    | none => none
    | some current_u64 =>
      match as_u64 r.target_amount with
      | none => none
      | some target_u64 =>
        if target_u64 = 0 then some 100
        else some (min (u64_saturating_mul current_u64 100 / target_u64) 100)

/-- Modelled from the spec's words (not the source) for comparison in C9:
full-precision `min(floor(current_amount * 100 / target_amount), 100)`. -/
def full_precision_progress (r : Remittance) : Nat :=
  min (r.current_amount * 100 / r.target_amount) 100

/-- Rust `str::trim` on a character list: drop leading and trailing
whitespace. -/
def trimChars (l : List Char) : List Char :=
  ((l.dropWhile Char.isWhitespace).reverse.dropWhile Char.isWhitespace).reverse

/-- `utils::validate_string_length`: errors with `PurposeMaxLength` when the
string is longer than `max_length`. -/
def validate_string_length (s : List Char) (max_length : Nat) : Except Error Unit :=
  if max_length < s.length then Except.error Error.PurposeMaxLength
  else Except.ok ()

/-- `utils::validate_account_hash`: the all-zero account hash is invalid. -/
def validate_account_hash (account : Principal) : Except Error Unit :=
  if account = 0 then Except.error Error.InvalidAccountHash
  else Except.ok ()

/-- `utils::validate_non_zero_amount`. -/
def validate_non_zero_amount (amount : Nat) : Except Error Unit :=
  if amount = 0 then Except.error Error.InvalidContributionAmount
  else Except.ok ()

/-- `utils::calculate_fee`: `fee = (amount * fee_bps) / 10000`, with
`U512::checked_mul` (overflow at `2 ^ 512` reverts `ArithmeticOverflow`,
via `unwrap_or_revert_with`) and `checked_div` by the non-zero constant
10000 (which never fails). -/
def calculate_fee (amount : Nat) (fee_bps : Nat) : Except Error Nat :=
  if amount * fee_bps < U512_LIMIT then Except.ok (amount * fee_bps / 10000)
  else Except.error Error.ArithmeticOverflow

/-- Persisted-write / external-transfer trace entries of one entry point,
in program order. -/
inductive Effect where
  | storeRemittance (r : Remittance)
  | storeContribution (id : Nat) (p : Principal) (amount : Nat)
  | addContributor (id : Nat) (p : Principal)
  | markRefundClaimed (id : Nat) (p : Principal)
  | receivePayment (amount : Nat)
  | transfer (dest : Principal) (amount : Nat)
  deriving DecidableEq, Repr

/-- The contract's persisted global state: the dictionaries and configuration
scalars of storage.rs that the claims concern. -/
structure State where
  counter : Nat
  remittances : Nat → Option Remittance
  contributions : Nat → Principal → Nat
  contributors : Nat → List Principal
  refundClaimed : Nat → Principal → Bool
  feeBps : Nat
  feeCollector : Principal
  owner : Principal
  paused : Bool

/-- `storage::initialize_contract`: empty dictionaries, counter 0, default
fee 50 bps, owner and fee collector set to the installer, unpaused. -/
def init_state (owner : Principal) : State :=
  { counter := 0,
    remittances := fun _ => none,
    contributions := fun _ _ => 0,
    contributors := fun _ => [],
    refundClaimed := fun _ _ => false,
    feeBps := DEFAULT_FEE_BPS,
    feeCollector := owner,
    owner := owner,
    paused := false }

/-- `storage::store_remittance`: dictionary put keyed by `remittance.id`. -/
def store_remittance (s : State) (r : Remittance) : State :=
  { s with remittances := fun i => if i = r.id then some r else s.remittances i }

/-- `storage::store_contribution`: reads the existing cumulative amount for
`(remittance_id, contributor)` (default 0) and writes the checked sum. -/
def store_contribution (s : State) (id : Nat) (p : Principal) (amount : Nat) :
    Except Error State :=
  if s.contributions id p + amount < U512_LIMIT then
    Except.ok { s with contributions :=
      fun i q =>
        if i = id ∧ q = p then s.contributions id p + amount else s.contributions i q }
  else Except.error Error.ArithmeticOverflow

/-- `storage::add_contributor`: append the contributor to the per-id list
when absent; also returns the write effect actually issued. -/
def add_contributor (s : State) (id : Nat) (p : Principal) : State × List Effect :=
  if p ∈ s.contributors id then (s, [])
  else
    ({ s with contributors :=
        fun i => if i = id then s.contributors i ++ [p] else s.contributors i },
     [Effect.addContributor id p])

/-- `storage::mark_refund_claimed`: dictionary put of `true` at
`(remittance_id, contributor)`. -/
def mark_refund_claimed (s : State) (id : Nat) (p : Principal) : State :=
  { s with refundClaimed :=
      fun i q => if i = id ∧ q = p then true else s.refundClaimed i q }

/-- `utils::transfer_cspr` as a trace: a zero amount transfers nothing,
otherwise one external transfer to `dest`. -/
def transfer_cspr (dest : Principal) (amount : Nat) : List Effect :=
  if amount = 0 then [] else [Effect.transfer dest amount]

/-- `create_remittance_entry` from entry_points.rs.  Checks in program
order: paused; recipient and caller account-hash validity; non-zero target;
purpose length (`validate_string_length`, on the untrimmed string) and
non-emptiness after trim; then allocates the next id (u64 `checked_add`)
and persists the fresh record. -/
def create_remittance (s : State) (caller recipient : Principal) (target_amount : Nat)
    (purpose : List Char) (ts : Nat) : Except Error (State × List Effect) :=
  if s.paused then Except.error Error.ContractPaused
  else if recipient = 0 then Except.error Error.InvalidAccountHash
  else if caller = 0 then Except.error Error.InvalidAccountHash
  else if target_amount = 0 then Except.error Error.InvalidTargetAmount
  else if MAX_PURPOSE_LENGTH < purpose.length then Except.error Error.PurposeMaxLength
  else if trimChars purpose = [] then Except.error Error.PurposeMaxLength
  else if s.counter + 1 < U64_LIMIT then
    Except.ok
      (store_remittance { s with counter := s.counter + 1 }
        (Remittance.new (s.counter + 1) caller recipient target_amount purpose ts),
       [Effect.storeRemittance
          (Remittance.new (s.counter + 1) caller recipient target_amount purpose ts)])
  else Except.error Error.ArithmeticOverflow

/-- `contribute_entry` from entry_points.rs.  Checks in program order:
paused; non-zero amount; record exists; record active (reporting
`AlreadyReleased` / `RemittanceCancelled`); then receives the payment into
escrow, adds `amount` to `current_amount` (`checked_add`), persists the
record, accumulates the contribution ledger entry (`checked_add` inside
`store_contribution`) and registers the contributor. -/
def contribute (s : State) (caller : Principal) (id : Nat) (amount : Nat) :
    Except Error (State × List Effect) :=
  if s.paused then Except.error Error.ContractPaused
  else if amount = 0 then Except.error Error.InvalidContributionAmount
  else
    match s.remittances id with
    | none => Except.error Error.RemittanceNotFound
    | some r =>
      if r.is_released then Except.error Error.AlreadyReleased
      else if r.is_cancelled then Except.error Error.RemittanceCancelled
      else if r.current_amount + amount < U512_LIMIT then
        match store_contribution
            (store_remittance s { r with current_amount := r.current_amount + amount })
            id caller amount with
        | Except.error e => Except.error e
        | Except.ok s2 =>
          Except.ok ((add_contributor s2 id caller).1,
            Effect.receivePayment amount ::
            Effect.storeRemittance { r with current_amount := r.current_amount + amount } ::
            Effect.storeContribution id caller amount ::
            (add_contributor s2 id caller).2)
      else Except.error Error.ArithmeticOverflow

/-- `release_funds_entry` from entry_points.rs.  Checks in program order:
paused; record exists; caller is the recipient; not released; not
cancelled; target met.  Then computes the platform fee
(`calculate_fee`), the recipient amount (`checked_sub`), marks
`is_released = true` and persists the record BEFORE issuing the fee and
payout transfers (the fee transfer is skipped when the fee is zero). -/
def release_funds (s : State) (caller : Principal) (id : Nat) :
    Except Error (State × List Effect) :=
  if s.paused then Except.error Error.ContractPaused
  else
    match s.remittances id with
    | none => Except.error Error.RemittanceNotFound
    | some r =>
      if caller = r.recipient then
        if r.is_released then Except.error Error.AlreadyReleased
        else if r.is_cancelled then Except.error Error.RemittanceCancelled
        else if r.current_amount < r.target_amount then Except.error Error.TargetNotMet
        else
          match calculate_fee r.current_amount s.feeBps with
          | Except.error e => Except.error e
          | Except.ok fee =>
            if fee ≤ r.current_amount then
              Except.ok (store_remittance s { r with is_released := true },
                Effect.storeRemittance { r with is_released := true } ::
                (transfer_cspr s.feeCollector fee ++
                 transfer_cspr r.recipient (r.current_amount - fee)))
            else Except.error Error.ArithmeticOverflow
      else Except.error Error.Unauthorized

/-- `cancel_remittance_entry` from entry_points.rs: paused; record exists;
caller is the creator; not released; not cancelled; then sets
`is_cancelled = true` and persists.  No funds move. -/
def cancel_remittance (s : State) (caller : Principal) (id : Nat) :
    Except Error (State × List Effect) :=
  if s.paused then Except.error Error.ContractPaused
  else
    match s.remittances id with
    | none => Except.error Error.RemittanceNotFound
    | some r =>
      if caller = r.creator then
        if r.is_released then Except.error Error.AlreadyReleased
        else if r.is_cancelled then Except.error Error.RemittanceCancelled
        else
          Except.ok (store_remittance s { r with is_cancelled := true },
            [Effect.storeRemittance { r with is_cancelled := true }])
      else Except.error Error.Unauthorized

/-- `claim_refund_entry` from entry_points.rs: paused; record exists;
record is cancelled (`NotCancelled` otherwise); caller's ledger entry is
non-zero (`NoContribution`); refund marker not yet set
(`RefundAlreadyClaimed`); then sets the marker BEFORE transferring the
full ledger amount back to the caller. -/
def claim_refund (s : State) (caller : Principal) (id : Nat) :
    Except Error (State × List Effect) :=
  if s.paused then Except.error Error.ContractPaused
  else
    match s.remittances id with
    | none => Except.error Error.RemittanceNotFound
    | some r =>
      if r.is_cancelled then
        if s.contributions id caller = 0 then Except.error Error.NoContribution
        else if s.refundClaimed id caller then Except.error Error.RefundAlreadyClaimed
        else
          Except.ok (mark_refund_claimed s id caller,
            Effect.markRefundClaimed id caller ::
              transfer_cspr caller (s.contributions id caller))
      else Except.error Error.NotCancelled

/-- `set_platform_fee_entry` from entry_points.rs: owner-gated (no pause
check in the source); fees above `MAX_FEE_BPS` fail with `FeeTooHigh`. -/
def set_platform_fee (s : State) (caller : Principal) (fee_bps : Nat) :
    Except Error (State × List Effect) :=
  if caller = s.owner then
    if MAX_FEE_BPS < fee_bps then Except.error Error.FeeTooHigh
    else Except.ok ({ s with feeBps := fee_bps }, [])
  else Except.error Error.Unauthorized

/-- `pause_contract_entry`: owner-gated, sets the paused flag. -/
def pause_contract (s : State) (caller : Principal) :
    Except Error (State × List Effect) :=
  if caller = s.owner then Except.ok ({ s with paused := true }, [])
  else Except.error Error.Unauthorized

/-- `unpause_contract_entry`: owner-gated, clears the paused flag. -/
def unpause_contract (s : State) (caller : Principal) :
    Except Error (State × List Effect) :=
  if caller = s.owner then Except.ok ({ s with paused := false }, [])
  else Except.error Error.Unauthorized

/-- One invocation of a mutating entry point, with its caller and raw
arguments. -/
inductive Op where
  | create (caller recipient : Principal) (target_amount : Nat)
      (purpose : List Char) (ts : Nat)
  | contribute (caller : Principal) (id : Nat) (amount : Nat)
  | release (caller : Principal) (id : Nat)
  | cancel (caller : Principal) (id : Nat)
  | claimRefund (caller : Principal) (id : Nat)
  | setFee (caller : Principal) (fee_bps : Nat)
  | pause (caller : Principal)
  | unpause (caller : Principal)

/-- Dispatch one operation against the state. -/
def run (s : State) : Op → Except Error (State × List Effect)
  | Op.create c r t p ts => create_remittance s c r t p ts
  | Op.contribute c id a => contribute s c id a
  | Op.release c id => release_funds s c id
  | Op.cancel c id => cancel_remittance s c id
  | Op.claimRefund c id => claim_refund s c id
  | Op.setFee c b => set_platform_fee s c b
  | Op.pause c => pause_contract s c
  | Op.unpause c => unpause_contract s c

/-- One successful operation (a failed operation reverts and produces no
successor state). -/
def Step (s s' : State) : Prop :=
  ∃ op out, run s op = Except.ok out ∧ s' = out.1

/-- States reachable from contract installation by successful operations. -/
inductive Reachable : State → Prop
  | base (owner : Principal) : Reachable (init_state owner)
  | step {s s' : State} : Reachable s → Step s s' → Reachable s'

/-- Zero or more successful operations. -/
inductive Steps : State → State → Prop
  | refl (s : State) : Steps s s
  | tail {s t u : State} : Steps s t → Step t u → Steps s u

/-- Sum of the contribution-ledger entries of the recorded contributors of a
remittance. -/
def contribSum (s : State) (id : Nat) : Nat :=
  ((s.contributors id).map (s.contributions id)).sum

/-- Demo: state right after installation by owner 1. -/
def demoS0 : State := init_state 1

/-- Demo: the operation creating remittance 1. -/
def demoOp1 : Op := Op.create 1 2 5 ['h'] 0

/-- Demo: state after `create`. -/
def demoS1 : State :=
  match run demoS0 demoOp1 with
  | Except.ok out => out.1
  | Except.error _ => demoS0

/-- Demo: the operation contributing 5 from principal 3 to remittance 1. -/
def demoOp2 : Op := Op.contribute 3 1 5

/-- Demo: state after `create` and `contribute`. -/
def demoS2 : State :=
  match run demoS1 demoOp2 with
  | Except.ok out => out.1
  | Except.error _ => demoS1

/-- Demo: the operation cancelling remittance 1 (by its creator 1). -/
def demoOp3 : Op := Op.cancel 1 1

/-- Demo: state after `create`, `contribute`, `cancel`. -/
def demoS3 : State :=
  match run demoS2 demoOp3 with
  | Except.ok out => out.1
  | Except.error _ => demoS2

/-- Demo: the cancelled remittance record stored in `demoS3`. -/
def demoRecCancelled : Remittance :=
  { id := 1, creator := 1, recipient := 2, target_amount := 5, current_amount := 5,
    purpose := ['h'], created_at := 0, is_released := false, is_cancelled := true }

/-- Demo: state after principal 3 claims its refund in `demoS3`. -/
def demoS4 : State :=
  match run demoS3 (Op.claimRefund 3 1) with
  | Except.ok out => out.1
  | Except.error _ => demoS3

/-- Demo: the released remittance record produced by releasing in `demoS2`. -/
def demoRecReleased : Remittance :=
  { id := 1, creator := 1, recipient := 2, target_amount := 5, current_amount := 5,
    purpose := ['h'], created_at := 0, is_released := true, is_cancelled := false }

/-- Demo: `2 ^ 509` as a numeral. -/
def BIG_AMOUNT : Nat := 1675975991242824637446753124775730765934920727574049172215445180465220503759193372100234287270862928461253982273310756356719235351493321243304206125760512

/-- Demo: state with a remittance of target 1 holding `2 ^ 509` motes. -/
def demoBig : State :=
  match run demoS0 (Op.create 1 2 1 ['h'] 0) with
  | Except.ok out =>
    (match run out.1 (Op.contribute 3 1 BIG_AMOUNT) with
     | Except.ok out2 => out2.1
     | Except.error _ => out.1)
  | Except.error _ => demoS0

/-- Demo: the huge remittance record stored in `demoBig`. -/
def demoRecBig : Remittance :=
  { id := 1, creator := 1, recipient := 2, target_amount := 1,
    current_amount := BIG_AMOUNT, purpose := ['h'], created_at := 0,
    is_released := false, is_cancelled := false }

/-- The inductive invariant maintained by every successful operation:
record keys match record ids, ids never exceed the allocation counter,
absent records have empty ledgers, the contributor list is duplicate-free
and covers every non-zero ledger entry, the ledger sums to
`current_amount`, the two terminal flags are never both set, stored
targets are positive, and the fee is within `MAX_FEE_BPS`. -/
structure StateInv (s : State) : Prop where
  idMatch : ∀ id r, s.remittances id = some r → r.id = id
  counterBound : ∀ id r, s.remittances id = some r → id ≤ s.counter
  noRecordEmpty : ∀ id, s.remittances id = none →
    (∀ p, s.contributions id p = 0) ∧ s.contributors id = []
  nodup : ∀ id, (s.contributors id).Nodup
  memOfPos : ∀ id p, s.contributions id p ≠ 0 → p ∈ s.contributors id
  sumEq : ∀ id r, s.remittances id = some r → contribSum s id = r.current_amount
  notBoth : ∀ id r, s.remittances id = some r →
    ¬(r.is_released = true ∧ r.is_cancelled = true)
  targetPos : ∀ id r, s.remittances id = some r → r.target_amount ≠ 0
  feeOk : s.feeBps ≤ MAX_FEE_BPS

/-- Demo: a remittance with `current = target = 2 ^ 63` (inside the u64
range, but `current * 100` overflows u64 and saturates). -/
def demoRecSat : Remittance :=
  { id := 1, creator := 1, recipient := 2, target_amount := 9223372036854775808,
    current_amount := 9223372036854775808, purpose := ['h'], created_at := 0,
    is_released := false, is_cancelled := false }

/-- Demo: a remittance whose amounts are `2 ^ 65`, beyond the u64 range. -/
def demoRecHuge : Remittance :=
  { id := 1, creator := 1, recipient := 2, target_amount := 36893488147419103232,
    current_amount := 36893488147419103232, purpose := ['h'], created_at := 0,
    is_released := false, is_cancelled := false }

/-- Demo: a remittance with a `2 ^ 65` target and a small current amount. -/
def demoRecHugeTarget : Remittance :=
  { id := 1, creator := 1, recipient := 2, target_amount := 36893488147419103232,
    current_amount := 5, purpose := ['h'], created_at := 0,
    is_released := false, is_cancelled := false }

/-- Sanity check connecting the numeral `U512_LIMIT` with `2 ^ 512`. -/
theorem U512_LIMIT_eq : U512_LIMIT = 2 ^ 512 := by norm_num [U512_LIMIT]

/-- Sanity check connecting the numeral `U64_LIMIT` with `2 ^ 64`. -/
theorem U64_LIMIT_eq : U64_LIMIT = 2 ^ 64 := by norm_num [U64_LIMIT]

/-- Demo: `demoS1` is reachable. -/
theorem demoS1_reachable : Reachable demoS1 :=
  Reachable.step (Reachable.base 1) ⟨demoOp1, _, rfl, rfl⟩

/-- Demo: `demoS2` is reachable. -/
theorem demoS2_reachable : Reachable demoS2 :=
  Reachable.step demoS1_reachable ⟨demoOp2, _, rfl, rfl⟩

/-- Demo: `demoS3` is reachable. -/
theorem demoS3_reachable : Reachable demoS3 :=
  Reachable.step demoS2_reachable ⟨demoOp3, _, rfl, rfl⟩

/-- Sanity check for the `BIG_AMOUNT` numeral. -/
theorem BIG_AMOUNT_eq : BIG_AMOUNT = 2 ^ 509 := by norm_num [BIG_AMOUNT]

/-- Demo: `demoBig` is reachable. -/
theorem demoBig_reachable : Reachable demoBig :=
  Reachable.step (Reachable.step (Reachable.base 1) ⟨Op.create 1 2 1 ['h'] 0, _, rfl, rfl⟩)
    ⟨Op.contribute 3 1 BIG_AMOUNT, _, rfl, rfl⟩

/-- Summing a pointwise-updated ledger over a list not containing the updated
key leaves the sum unchanged. -/
theorem sum_map_ite_not_mem (l : List Principal) (f : Principal → Nat) (p : Principal)
    (v : Nat) (h : p ∉ l) :
    (l.map fun q => if q = p then v else f q).sum = (l.map f).sum := by
  induction l with
  | nil => rfl
  | cons a t ih =>
    simp only [List.mem_cons, not_or] at h
    simp only [List.map_cons, List.sum_cons,
      if_neg (fun hq : a = p => h.1 hq.symm), ih h.2]

/-- Summing a ledger updated by `+ v` at a key occurring exactly once in the
list adds `v` to the sum. -/
theorem sum_map_ite_mem (l : List Principal) (f : Principal → Nat) (p : Principal)
    (v : Nat) (hnd : l.Nodup) (hmem : p ∈ l) :
    (l.map fun q => if q = p then f p + v else f q).sum = (l.map f).sum + v := by
  induction l with
  | nil => cases hmem
  | cons a t ih =>
    rw [List.nodup_cons] at hnd
    rcases List.mem_cons.mp hmem with h1 | h2
    · subst h1
      have ht := sum_map_ite_not_mem t f p (f p + v) hnd.1
      simp only [List.map_cons, List.sum_cons, ht, if_pos rfl, ite_true]
      omega
    · have hap : a ≠ p := fun hh => hnd.1 (hh ▸ h2)
      simp only [List.map_cons, List.sum_cons, if_neg hap, ih hnd.2 h2]
      omega

/-- The initial state satisfies the invariant. -/
theorem inv_init (owner : Principal) : StateInv (init_state owner) := by
  refine { idMatch := ?_, counterBound := ?_, noRecordEmpty := ?_, nodup := ?_,
           memOfPos := ?_, sumEq := ?_, notBoth := ?_, targetPos := ?_, feeOk := ?_ } <;>
    simp [init_state, contribSum, MAX_FEE_BPS, DEFAULT_FEE_BPS]

/-- Updating a stored record in place (same id, same `current_amount`, same
target, flags not both set) preserves the invariant. -/
theorem StateInv.store_update {s : State} (h : StateInv s) (r0 r1 : Remittance)
    (hid : s.remittances r1.id = some r0)
    (hidf : r1.id = r0.id)
    (hcur : r1.current_amount = r0.current_amount)
    (htar : r1.target_amount = r0.target_amount)
    (hflags : ¬(r1.is_released = true ∧ r1.is_cancelled = true)) :
    StateInv (store_remittance s r1) := by
  have hkey : ∀ i, (store_remittance s r1).remittances i =
      if i = r1.id then some r1 else s.remittances i := fun _ => rfl
  refine { idMatch := ?_, counterBound := ?_, noRecordEmpty := ?_, nodup := h.nodup,
           memOfPos := h.memOfPos, sumEq := ?_, notBoth := ?_, targetPos := ?_,
           feeOk := h.feeOk }
  · intro id r hr
    rw [hkey] at hr
    split at hr
    · next he => cases hr; omega
    · exact h.idMatch id r hr
  · intro id r hr
    rw [hkey] at hr
    split at hr
    · next he => exact he ▸ h.counterBound r1.id r0 hid
    · exact h.counterBound id r hr
  · intro id hr
    rw [hkey] at hr
    split at hr
    · cases hr
    · exact h.noRecordEmpty id hr
  · intro id r hr
    rw [hkey] at hr
    split at hr
    · next he =>
      cases hr
      have : contribSum s id = r0.current_amount := he ▸ h.sumEq r1.id r0 hid
      rw [hcur]
      exact this
    · exact h.sumEq id r hr
  · intro id r hr
    rw [hkey] at hr
    split at hr
    · cases hr; exact hflags
    · exact h.notBoth id r hr
  · intro id r hr
    rw [hkey] at hr
    split at hr
    · cases hr; rw [htar]; exact h.targetPos r1.id r0 hid
    · exact h.targetPos id r hr

/-- `claim_refund` preserves the invariant (it only writes the refund
marker). -/
theorem inv_claim_refund {s : State} {caller : Principal} {id : Nat} {out : State × List Effect}
    (h : StateInv s) (hok : claim_refund s caller id = Except.ok out) :
    StateInv out.1 := by
  unfold claim_refund at hok
  repeat' split at hok
  all_goals try exact Except.noConfusion hok
  injection hok with h1
  rw [← h1]
  exact { idMatch := h.idMatch, counterBound := h.counterBound,
          noRecordEmpty := h.noRecordEmpty, nodup := h.nodup,
          memOfPos := h.memOfPos, sumEq := h.sumEq, notBoth := h.notBoth,
          targetPos := h.targetPos, feeOk := h.feeOk }

/-- `set_platform_fee` preserves the invariant. -/
theorem inv_set_platform_fee {s : State} {caller : Principal} {bps : Nat}
    {out : State × List Effect}
    (h : StateInv s) (hok : set_platform_fee s caller bps = Except.ok out) :
    StateInv out.1 := by
  unfold set_platform_fee at hok
  split at hok
  · split at hok
    · exact Except.noConfusion hok
    · next hle =>
      injection hok with h1
      rw [← h1]
      exact { idMatch := h.idMatch, counterBound := h.counterBound,
              noRecordEmpty := h.noRecordEmpty, nodup := h.nodup,
              memOfPos := h.memOfPos, sumEq := h.sumEq, notBoth := h.notBoth,
              targetPos := h.targetPos, feeOk := Nat.not_lt.mp hle }
  · exact Except.noConfusion hok

/-- `pause_contract` preserves the invariant. -/
theorem inv_pause {s : State} {caller : Principal} {out : State × List Effect}
    (h : StateInv s) (hok : pause_contract s caller = Except.ok out) :
    StateInv out.1 := by
  unfold pause_contract at hok
  split at hok
  · injection hok with h1
    rw [← h1]
    exact { idMatch := h.idMatch, counterBound := h.counterBound,
            noRecordEmpty := h.noRecordEmpty, nodup := h.nodup,
            memOfPos := h.memOfPos, sumEq := h.sumEq, notBoth := h.notBoth,
            targetPos := h.targetPos, feeOk := h.feeOk }
  · exact Except.noConfusion hok

/-- `unpause_contract` preserves the invariant. -/
theorem inv_unpause {s : State} {caller : Principal} {out : State × List Effect}
    (h : StateInv s) (hok : unpause_contract s caller = Except.ok out) :
    StateInv out.1 := by
  unfold unpause_contract at hok
  split at hok
  · injection hok with h1
    rw [← h1]
    exact { idMatch := h.idMatch, counterBound := h.counterBound,
            noRecordEmpty := h.noRecordEmpty, nodup := h.nodup,
            memOfPos := h.memOfPos, sumEq := h.sumEq, notBoth := h.notBoth,
            targetPos := h.targetPos, feeOk := h.feeOk }
  · exact Except.noConfusion hok

/-- `create_remittance` preserves the invariant: it allocates a fresh id with
an empty ledger and a zeroed, active record. -/
theorem inv_create {s : State} {c rcp : Principal} {t : Nat} {p : List Char} {ts : Nat}
    {out : State × List Effect}
    (h : StateInv s) (hok : create_remittance s c rcp t p ts = Except.ok out) :
    StateInv out.1 := by
  unfold create_remittance at hok
  repeat' split at hok
  all_goals try exact Except.noConfusion hok
  next htar0 _ _ _ =>
  injection hok with h1
  rw [← h1]
  have hfresh : s.remittances (s.counter + 1) = none := by
    cases hcase : s.remittances (s.counter + 1) with
    | none => rfl
    | some r0 => exact absurd (h.counterBound _ r0 hcase) (by omega)
  have hkey : ∀ i, (store_remittance { s with counter := s.counter + 1 }
      (Remittance.new (s.counter + 1) c rcp t p ts)).remittances i =
      if i = s.counter + 1 then some (Remittance.new (s.counter + 1) c rcp t p ts)
      else s.remittances i := fun _ => rfl
  refine { idMatch := ?_, counterBound := ?_, noRecordEmpty := ?_, nodup := h.nodup,
           memOfPos := h.memOfPos, sumEq := ?_, notBoth := ?_, targetPos := ?_,
           feeOk := h.feeOk }
  · intro id r hr
    rw [hkey] at hr
    split at hr
    · next he => cases hr; exact he.symm
    · exact h.idMatch id r hr
  · intro id r hr
    rw [hkey] at hr
    show id ≤ s.counter + 1
    split at hr
    · next he => omega
    · have := h.counterBound id r hr
      omega
  · intro id hr
    rw [hkey] at hr
    split at hr
    · cases hr
    · exact h.noRecordEmpty id hr
  · intro id r hr
    rw [hkey] at hr
    split at hr
    · next he =>
      cases hr
      have hempty := h.noRecordEmpty (s.counter + 1) hfresh
      show contribSum s id = 0
      rw [he]
      unfold contribSum
      rw [hempty.2]
      rfl
    · exact h.sumEq id r hr
  · intro id r hr
    rw [hkey] at hr
    split at hr
    · cases hr; simp [Remittance.new]
    · exact h.notBoth id r hr
  · intro id r hr
    rw [hkey] at hr
    split at hr
    · cases hr; exact htar0
    · exact h.targetPos id r hr

/-- `release_funds` preserves the invariant. -/
theorem inv_release {s : State} {caller : Principal} {id : Nat}
    {out : State × List Effect}
    (h : StateInv s) (hok : release_funds s caller id = Except.ok out) :
    StateInv out.1 := by
  unfold release_funds at hok
  repeat' split at hok
  all_goals try exact Except.noConfusion hok
  rename_i hpause xo r hr hrecip hrel hcan htar xf fee hfee hle
  injection hok with h1
  rw [← h1]
  have hid : r.id = id := h.idMatch id r hr
  refine h.store_update r { r with is_released := true } ?_ rfl rfl rfl ?_
  · show s.remittances r.id = some r
    rw [hid]; exact hr
  · exact fun hq => hcan hq.2

/-- `cancel_remittance` preserves the invariant. -/
theorem inv_cancel {s : State} {caller : Principal} {id : Nat}
    {out : State × List Effect}
    (h : StateInv s) (hok : cancel_remittance s caller id = Except.ok out) :
    StateInv out.1 := by
  unfold cancel_remittance at hok
  repeat' split at hok
  all_goals try exact Except.noConfusion hok
  rename_i hpause xo r hr hcreat hrel hcan
  injection hok with h1
  rw [← h1]
  have hid : r.id = id := h.idMatch id r hr
  refine h.store_update r { r with is_cancelled := true } ?_ rfl rfl rfl ?_
  · show s.remittances r.id = some r
    rw [hid]; exact hr
  · exact fun hq => hrel hq.1

/-- Core preservation argument for `contribute`: any state `F` whose
components differ from `s` exactly by (a) the record at `id` gaining
`amount` on `current_amount`, (b) the ledger entry at `(id, caller)` gaining
`amount`, and (c) `caller` being appended to the contributor list when
absent, satisfies the invariant again. -/
theorem inv_after_contribution {s : State} (h : StateInv s) {id : Nat} {r : Remittance}
    (hr : s.remittances id = some r) (caller : Principal) (amount : Nat) (F : State)
    (hrem : ∀ i, F.remittances i =
      if i = id then some { r with current_amount := r.current_amount + amount }
      else s.remittances i)
    (hcontrib : ∀ i q, F.contributions i q =
      if i = id ∧ q = caller then s.contributions id caller + amount
      else s.contributions i q)
    (hcontr : ((∀ i, F.contributors i = s.contributors i) ∧ caller ∈ s.contributors id) ∨
      ((∀ i, F.contributors i =
          if i = id then s.contributors i ++ [caller] else s.contributors i) ∧
        caller ∉ s.contributors id))
    (hcounter : F.counter = s.counter) (hfee : F.feeBps = s.feeBps) :
    StateInv F := by
  have hid : r.id = id := h.idMatch id r hr
  refine { idMatch := ?_, counterBound := ?_, noRecordEmpty := ?_, nodup := ?_,
           memOfPos := ?_, sumEq := ?_, notBoth := ?_, targetPos := ?_, feeOk := ?_ }
  · intro j r' hj
    rw [hrem] at hj
    split at hj
    · next he => cases hj; rw [he]; exact hid
    · exact h.idMatch j r' hj
  · intro j r' hj
    rw [hrem] at hj
    rw [hcounter]
    split at hj
    · next he => exact he ▸ h.counterBound id r hr
    · exact h.counterBound j r' hj
  · intro j hj
    rw [hrem] at hj
    split at hj
    · cases hj
    · next hne =>
      refine ⟨?_, ?_⟩
      · intro p
        rw [hcontrib]
        rw [if_neg (fun hc => hne hc.1)]
        exact (h.noRecordEmpty j hj).1 p
      · rcases hcontr with ⟨he, _⟩ | ⟨he, _⟩
        · rw [he]; exact (h.noRecordEmpty j hj).2
        · rw [he, if_neg hne]; exact (h.noRecordEmpty j hj).2
  · intro j
    rcases hcontr with ⟨he, _⟩ | ⟨he, hnmem⟩
    · rw [he]; exact h.nodup j
    · rw [he]
      split
      · next hje =>
        rw [List.nodup_append]
        exact ⟨hje ▸ h.nodup j, List.nodup_singleton caller,
          fun a ha hca => hnmem ((List.mem_singleton.mp hca) ▸ hje ▸ ha)⟩
      · exact h.nodup j
  · intro j q hq
    rw [hcontrib] at hq
    split at hq
    · next hc =>
      rcases hc with ⟨hj, hqc⟩
      rcases hcontr with ⟨he, hmem⟩ | ⟨he, _⟩
      · rw [he, hj, hqc]; exact hmem
      · rw [he, hj, hqc, if_pos rfl]
        exact List.mem_append_right _ (List.mem_singleton.mpr rfl)
    · have hmemq := h.memOfPos j q hq
      rcases hcontr with ⟨he, _⟩ | ⟨he, _⟩
      · rw [he]; exact hmemq
      · rw [he]
        split
        · exact List.mem_append_left _ hmemq
        · exact hmemq
  · intro j r' hj
    rw [hrem] at hj
    split at hj
    · next he =>
      cases hj
      rw [he]
      show contribSum F id = r.current_amount + amount
      unfold contribSum
      rcases hcontr with ⟨he2, hmem⟩ | ⟨he2, hnmem⟩
      · rw [he2]
        rw [List.map_congr_left (g := fun q =>
            if q = caller then s.contributions id caller + amount else s.contributions id q)
          (fun q _ => by rw [hcontrib]; simp)]
        rw [sum_map_ite_mem (s.contributors id) (s.contributions id) caller amount
          (h.nodup id) hmem]
        rw [show ((s.contributors id).map (s.contributions id)).sum = r.current_amount
          from h.sumEq id r hr]
      · have hz : s.contributions id caller = 0 := by
          by_contra hnz
          exact hnmem (h.memOfPos id caller hnz)
        rw [he2, if_pos rfl, List.map_append, List.sum_append]
        rw [List.map_congr_left (g := s.contributions id)
          (fun q hq => by
            rw [hcontrib]
            exact if_neg (fun hc : id = id ∧ q = caller => hnmem (hc.2 ▸ hq)))]
        rw [show ((s.contributors id).map (s.contributions id)).sum = r.current_amount
          from h.sumEq id r hr]
        have hfc : F.contributions id caller = s.contributions id caller + amount := by
          rw [hcontrib]; exact if_pos ⟨rfl, rfl⟩
        simp only [List.map_cons, List.map_nil, List.sum_cons, List.sum_nil, hfc, hz]
        omega
    · next hne =>
      have hlist : F.contributors j = s.contributors j := by
        rcases hcontr with ⟨he2, _⟩ | ⟨he2, _⟩
        · exact he2 j
        · rw [he2]; exact if_neg hne
      unfold contribSum
      rw [hlist]
      rw [List.map_congr_left (g := s.contributions j)
        (fun q _ => by rw [hcontrib]; exact if_neg (fun hc => hne hc.1))]
      exact h.sumEq j r' hj
  · intro j r' hj
    rw [hrem] at hj
    split at hj
    · cases hj
      have := h.notBoth id r hr
      simpa using this
    · exact h.notBoth j r' hj
  · intro j r' hj
    rw [hrem] at hj
    split at hj
    · cases hj
      have := h.targetPos id r hr
      simpa using this
    · exact h.targetPos j r' hj
  · rw [hfee]; exact h.feeOk

/-- `contribute` preserves the invariant. -/
theorem inv_contribute {s : State} {caller : Principal} {id amount : Nat}
    {out : State × List Effect}
    (h : StateInv s) (hok : contribute s caller id amount = Except.ok out) :
    StateInv out.1 := by
  unfold contribute at hok
  repeat' split at hok
  all_goals try exact Except.noConfusion hok
  rename_i hpause hza xo r hr hrel hcan hov xs s2 hs2
  have hid : r.id = id := h.idMatch id r hr
  subst hid
  unfold store_contribution at hs2
  split at hs2
  · injection hs2 with h2
    subst h2
    injection hok with h1
    rw [← h1]
    refine inv_after_contribution h hr caller amount _ ?_ ?_ ?_ ?_ ?_
    · intro i
      unfold add_contributor
      split <;> rfl
    · intro i q
      unfold add_contributor
      split <;> rfl
    · unfold add_contributor
      split
      · next hmem => exact Or.inl ⟨fun _ => rfl, hmem⟩
      · next hnmem => exact Or.inr ⟨fun _ => rfl, hnmem⟩
    · unfold add_contributor
      split <;> rfl
    · unfold add_contributor
      split <;> rfl
  · exact Except.noConfusion hs2

/-- Every successful operation preserves the invariant. -/
theorem inv_step {s s' : State} (h : StateInv s) (hst : Step s s') : StateInv s' := by
  obtain ⟨op, out, hok, rfl⟩ := hst
  cases op with
  | create c rcp t p ts => exact inv_create h hok
  | contribute c id a => exact inv_contribute h hok
  | release c id => exact inv_release h hok
  | cancel c id => exact inv_cancel h hok
  | claimRefund c id => exact inv_claim_refund h hok
  | setFee c b => exact inv_set_platform_fee h hok
  | pause c => exact inv_pause h hok
  | unpause c => exact inv_unpause h hok

/-- Every reachable state satisfies the invariant. -/
theorem reachable_inv {s : State} (h : Reachable s) : StateInv s := by
  induction h with
  | base o => exact inv_init o
  | step _ hst ih => exact inv_step ih hst

/-- Sequences of successful operations preserve the invariant. -/
theorem steps_inv {s s' : State} (h : StateInv s) (hst : Steps s s') : StateInv s' := by
  induction hst with
  | refl => exact h
  | tail _ hstep ih => exact inv_step ih hstep

/-- A record whose terminal flag is set is frozen by any single successful
operation: the record, its ledger entries and its contributor list are
unchanged. -/
theorem step_frozen {s s' : State} (h : StateInv s) (hst : Step s s') {id : Nat}
    {r : Remittance} (hr : s.remittances id = some r)
    (hflag : r.is_released = true ∨ r.is_cancelled = true) :
    s'.remittances id = some r ∧ (∀ p, s'.contributions id p = s.contributions id p) ∧
      s'.contributors id = s.contributors id := by
  obtain ⟨op, out, hok, rfl⟩ := hst
  cases op with
  | create c rcp t p ts =>
    simp only [run] at hok
    unfold create_remittance at hok
    repeat' split at hok
    all_goals try exact Except.noConfusion hok
    injection hok with h1
    rw [← h1]
    have hcb := h.counterBound id r hr
    refine ⟨?_, fun q => rfl, rfl⟩
    show (if id = s.counter + 1 then
      some (Remittance.new (s.counter + 1) c rcp t p ts) else s.remittances id) = some r
    rw [if_neg (show ¬id = s.counter + 1 from fun he => by rw [he] at hcb; omega)]
    exact hr
  | contribute c id2 a =>
    simp only [run] at hok
    unfold contribute at hok
    repeat' split at hok
    all_goals try exact Except.noConfusion hok
    rename_i hpause hza xo r2 hr2 hrel2 hcan2 hov xs s2 hs2
    have hne : id2 ≠ id := by
      intro he
      rw [he, hr] at hr2
      injection hr2 with h3
      rcases hflag with hf | hf
      · exact hrel2 (h3 ▸ hf)
      · exact hcan2 (h3 ▸ hf)
    have hid2 : r2.id = id2 := h.idMatch id2 r2 hr2
    unfold store_contribution at hs2
    split at hs2
    · injection hs2 with h2
      subst h2
      injection hok with h1
      rw [← h1]
      refine ⟨?_, ?_, ?_⟩
      · have hgoal : (add_contributor
            { store_remittance s { r2 with current_amount := r2.current_amount + a } with
              contributions := fun i q =>
                if i = id2 ∧ q = c then
                  (store_remittance s { r2 with current_amount := r2.current_amount + a
                    }).contributions id2 c + a
                else (store_remittance s { r2 with current_amount := r2.current_amount + a
                  }).contributions i q } id2 c).1.remittances id =
            (if id = r2.id then some { r2 with current_amount := r2.current_amount + a }
             else s.remittances id) := by
          unfold add_contributor
          split <;> rfl
        rw [hgoal, if_neg (fun he => hne (hid2 ▸ he.symm))]
        exact hr
      · intro q
        have hgoal : (add_contributor
            { store_remittance s { r2 with current_amount := r2.current_amount + a } with
              contributions := fun i q =>
                if i = id2 ∧ q = c then
                  (store_remittance s { r2 with current_amount := r2.current_amount + a
                    }).contributions id2 c + a
                else (store_remittance s { r2 with current_amount := r2.current_amount + a
                  }).contributions i q } id2 c).1.contributions id q =
            (if id = id2 ∧ q = c then s.contributions id2 c + a
             else s.contributions id q) := by
          unfold add_contributor
          split <;> rfl
        rw [hgoal, if_neg (fun hc => hne hc.1.symm)]
      · unfold add_contributor
        split
        · rfl
        · show (if id = id2 then s.contributors id ++ [c] else s.contributors id) =
            s.contributors id
          rw [if_neg (fun he => hne he.symm)]
    · exact Except.noConfusion hs2
  | release c id2 =>
    simp only [run] at hok
    unfold release_funds at hok
    repeat' split at hok
    all_goals try exact Except.noConfusion hok
    rename_i hpause xo r2 hr2 hrecip hrel2 hcan2 htar xf fee hfee hle
    have hne : id2 ≠ id := by
      intro he
      rw [he, hr] at hr2
      injection hr2 with h3
      rcases hflag with hf | hf
      · exact hrel2 (h3 ▸ hf)
      · exact hcan2 (h3 ▸ hf)
    have hid2 : r2.id = id2 := h.idMatch id2 r2 hr2
    injection hok with h1
    rw [← h1]
    refine ⟨?_, fun q => rfl, rfl⟩
    show (if id = r2.id then some { r2 with is_released := true }
      else s.remittances id) = some r
    rw [if_neg (fun he => hne (hid2 ▸ he.symm))]
    exact hr
  | cancel c id2 =>
    simp only [run] at hok
    unfold cancel_remittance at hok
    repeat' split at hok
    all_goals try exact Except.noConfusion hok
    rename_i hpause xo r2 hr2 hcreat hrel2 hcan2
    have hne : id2 ≠ id := by
      intro he
      rw [he, hr] at hr2
      injection hr2 with h3
      rcases hflag with hf | hf
      · exact hrel2 (h3 ▸ hf)
      · exact hcan2 (h3 ▸ hf)
    have hid2 : r2.id = id2 := h.idMatch id2 r2 hr2
    injection hok with h1
    rw [← h1]
    refine ⟨?_, fun q => rfl, rfl⟩
    show (if id = r2.id then some { r2 with is_cancelled := true }
      else s.remittances id) = some r
    rw [if_neg (fun he => hne (hid2 ▸ he.symm))]
    exact hr
  | claimRefund c id2 =>
    simp only [run] at hok
    unfold claim_refund at hok
    repeat' split at hok
    all_goals try exact Except.noConfusion hok
    injection hok with h1
    rw [← h1]
    exact ⟨hr, fun q => rfl, rfl⟩
  | setFee c b =>
    simp only [run] at hok
    unfold set_platform_fee at hok
    repeat' split at hok
    all_goals try exact Except.noConfusion hok
    injection hok with h1
    rw [← h1]
    exact ⟨hr, fun q => rfl, rfl⟩
  | pause c =>
    simp only [run] at hok
    unfold pause_contract at hok
    repeat' split at hok
    all_goals try exact Except.noConfusion hok
    injection hok with h1
    rw [← h1]
    exact ⟨hr, fun q => rfl, rfl⟩
  | unpause c =>
    simp only [run] at hok
    unfold unpause_contract at hok
    repeat' split at hok
    all_goals try exact Except.noConfusion hok
    injection hok with h1
    rw [← h1]
    exact ⟨hr, fun q => rfl, rfl⟩

/-- A frozen record stays frozen across any sequence of successful
operations. -/
theorem steps_frozen {s s' : State} (h : StateInv s) (hst : Steps s s') {id : Nat}
    {r : Remittance} (hr : s.remittances id = some r)
    (hflag : r.is_released = true ∨ r.is_cancelled = true) :
    s'.remittances id = some r ∧ (∀ p, s'.contributions id p = s.contributions id p) ∧
      s'.contributors id = s.contributors id := by
  induction hst with
  | refl => exact ⟨hr, fun _ => rfl, rfl⟩
  | tail hst' hstep ih =>
    obtain ⟨h1, h2, h3⟩ := ih
    obtain ⟨g1, g2, g3⟩ := step_frozen (steps_inv h hst') hstep h1 hflag
    exact ⟨g1, fun p => (g2 p).trans (h2 p), g3.trans h3⟩

/-- No operation ever clears a refund-claimed marker. -/
theorem step_marker {s s' : State} (hst : Step s s') {id : Nat} {p : Principal}
    (hm : s.refundClaimed id p = true) : s'.refundClaimed id p = true := by
  obtain ⟨op, out, hok, rfl⟩ := hst
  cases op with
  | create c rcp t pu ts =>
    simp only [run] at hok
    unfold create_remittance at hok
    repeat' split at hok
    all_goals try exact Except.noConfusion hok
    injection hok with h1
    rw [← h1]
    exact hm
  | contribute c id2 a =>
    simp only [run] at hok
    unfold contribute at hok
    repeat' split at hok
    all_goals try exact Except.noConfusion hok
    rename_i hpause hza xo r2 hr2 hrel2 hcan2 hov xs s2 hs2
    unfold store_contribution at hs2
    split at hs2
    · injection hs2 with h2
      subst h2
      injection hok with h1
      rw [← h1]
      unfold add_contributor
      split
      · exact hm
      · exact hm
    · exact Except.noConfusion hs2
  | release c id2 =>
    simp only [run] at hok
    unfold release_funds at hok
    repeat' split at hok
    all_goals try exact Except.noConfusion hok
    injection hok with h1
    rw [← h1]
    exact hm
  | cancel c id2 =>
    simp only [run] at hok
    unfold cancel_remittance at hok
    repeat' split at hok
    all_goals try exact Except.noConfusion hok
    injection hok with h1
    rw [← h1]
    exact hm
  | claimRefund c id2 =>
    simp only [run] at hok
    unfold claim_refund at hok
    repeat' split at hok
    all_goals try exact Except.noConfusion hok
    injection hok with h1
    rw [← h1]
    show (if id = id2 ∧ p = c then true else s.refundClaimed id p) = true
    split
    · rfl
    · exact hm
  | setFee c b =>
    simp only [run] at hok
    unfold set_platform_fee at hok
    repeat' split at hok
    all_goals try exact Except.noConfusion hok
    injection hok with h1
    rw [← h1]
    exact hm
  | pause c =>
    simp only [run] at hok
    unfold pause_contract at hok
    repeat' split at hok
    all_goals try exact Except.noConfusion hok
    injection hok with h1
    rw [← h1]
    exact hm
  | unpause c =>
    simp only [run] at hok
    unfold unpause_contract at hok
    repeat' split at hok
    all_goals try exact Except.noConfusion hok
    injection hok with h1
    rw [← h1]
    exact hm

/-- A set refund-claimed marker stays set across any sequence of successful
operations. -/
theorem steps_marker {s s' : State} (hst : Steps s s') {id : Nat} {p : Principal}
    (hm : s.refundClaimed id p = true) : s'.refundClaimed id p = true := by
  induction hst with
  | refl => exact hm
  | tail _ hstep ih => exact step_marker hstep ih

/-- C10: when the paused flag is set, all five mutating entry points —
create, contribute, release_funds, cancel_remittance and claim_refund —
fail immediately with `ContractPaused`, before any other check or any
state mutation (a failing call produces no successor state). -/
theorem pause_gates_all_mutations (s : State) (caller recipient : Principal)
    (id amount target : Nat) (purpose : List Char) (ts : Nat)
    (hp : s.paused = true) :
    create_remittance s caller recipient target purpose ts =
      Except.error Error.ContractPaused ∧
    contribute s caller id amount = Except.error Error.ContractPaused ∧
    release_funds s caller id = Except.error Error.ContractPaused ∧
    cancel_remittance s caller id = Except.error Error.ContractPaused ∧
    claim_refund s caller id = Except.error Error.ContractPaused := by
  unfold create_remittance contribute release_funds cancel_remittance claim_refund
  exact ⟨if_pos hp, if_pos hp, if_pos hp, if_pos hp, if_pos hp⟩

/-- C10 witness: in a concretely paused state every state-changing call is
rejected with `ContractPaused`. -/
theorem pause_gates_all_mutations_witness :
    release_funds { demoS0 with paused := true } 3 1 =
      Except.error Error.ContractPaused ∧
    cancel_remittance { demoS0 with paused := true } 3 1 =
      Except.error Error.ContractPaused ∧
    claim_refund { demoS0 with paused := true } 3 1 =
      Except.error Error.ContractPaused := by
  have h := pause_gates_all_mutations { demoS0 with paused := true } 3 2 1 1 5 ['h'] 0 rfl
  exact ⟨h.2.2.1, h.2.2.2.1, h.2.2.2.2⟩

/-- C7: in every reachable state the stored platform fee is at most 500 bps;
an owner call with bps above 500 fails with `FeeTooHigh` (producing no new
state, so the stored value is unchanged), and any owner call with
bps ≤ 500 — including 0 — succeeds and stores exactly that value. -/
theorem platform_fee_bound (s : State) (h : Reachable s) :
    s.feeBps ≤ MAX_FEE_BPS ∧
    (∀ caller bps, caller = s.owner → MAX_FEE_BPS < bps →
      set_platform_fee s caller bps = Except.error Error.FeeTooHigh) ∧
    (∀ caller bps, caller = s.owner → bps ≤ MAX_FEE_BPS →
      set_platform_fee s caller bps = Except.ok ({ s with feeBps := bps }, [])) := by
  refine ⟨(reachable_inv h).feeOk, ?_, ?_⟩
  · intro caller bps hc hgt
    unfold set_platform_fee
    rw [if_pos hc, if_pos hgt]
  · intro caller bps hc hle
    unfold set_platform_fee
    rw [if_pos hc, if_neg (by omega)]

/-- C7 witness: at installation the fee is within bound, 501 bps is
rejected and 0 bps is accepted by the owner. -/
theorem platform_fee_bound_witness :
    demoS0.feeBps ≤ MAX_FEE_BPS ∧
    set_platform_fee demoS0 1 501 = Except.error Error.FeeTooHigh ∧
    set_platform_fee demoS0 1 0 = Except.ok ({ demoS0 with feeBps := 0 }, []) := by
  have h := platform_fee_bound demoS0 (Reachable.base 1)
  exact ⟨h.1, h.2.1 1 501 rfl (by decide), h.2.2 1 0 rfl (by decide)⟩

/-- C4: for any `U512` amount and any bps within the 500 cap, the fee is
exactly `floor(amount * bps / 10000)` whenever the 512-bit product does not
overflow — and then never exceeds the amount — while an overflowing product
fails with `ArithmeticOverflow`; and every successful `release_funds`
splits `current_amount` exactly into `payout + fee`. -/
theorem fee_arithmetic (amount bps : Nat) (hbps : bps ≤ MAX_FEE_BPS)
    (_hamt : amount < U512_LIMIT) :
    (amount * bps < U512_LIMIT →
      calculate_fee amount bps = Except.ok (amount * bps / 10000) ∧
      amount * bps / 10000 ≤ amount) ∧
    (U512_LIMIT ≤ amount * bps →
      calculate_fee amount bps = Except.error Error.ArithmeticOverflow) ∧
    (∀ s caller id s' fx r, release_funds s caller id = Except.ok (s', fx) →
      s.remittances id = some r → s.feeBps = bps → r.current_amount = amount →
      ∃ fee, calculate_fee amount bps = Except.ok fee ∧ fee ≤ amount ∧
        (amount - fee) + fee = amount) := by
  have h500 : bps ≤ 500 := hbps
  have hfee_le : amount * bps / 10000 ≤ amount := by
    have h1 : amount * bps ≤ amount * 10000 := Nat.mul_le_mul_left amount (by omega)
    have h2 : amount * bps / 10000 ≤ amount * 10000 / 10000 := Nat.div_le_div_right h1
    have h3 : amount * 10000 / 10000 = amount := by simp
    omega
  refine ⟨?_, ?_, ?_⟩
  · intro hov
    unfold calculate_fee
    rw [if_pos hov]
    exact ⟨rfl, hfee_le⟩
  · intro hov
    unfold calculate_fee
    rw [if_neg (by omega)]
  · intro s caller id s' fx r hok hr hfb hca
    unfold release_funds at hok
    repeat' split at hok
    all_goals try exact Except.noConfusion hok
    rename_i hpause xo r2 hr2 hrecip hrel hcan htar xf fee hfee hle
    rw [hr] at hr2
    injection hr2 with h3
    subst h3
    refine ⟨fee, ?_, ?_, ?_⟩
    · rw [← hfb, ← hca]
      exact hfee
    · rw [← hca]
      exact hle
    · have hfa : fee ≤ amount := hca ▸ hle
      omega

/-- C4 witness: 50 bps on 10000 motes gives fee 50, which does not exceed
the amount. -/
theorem fee_arithmetic_witness :
    calculate_fee 10000 50 = Except.ok 50 ∧ 50 ≤ 10000 := by
  have h := (fee_arithmetic 10000 50 (by decide) (by decide)).1 (by decide)
  exact ⟨h.1, h.2⟩

/-- Every element of a `transfer_cspr` trace is an external transfer. -/
theorem transfer_cspr_all_transfers (d : Principal) (a : Nat) :
    ∀ e ∈ transfer_cspr d a, ∃ d2 a2, e = Effect.transfer d2 a2 := by
  intro e he
  unfold transfer_cspr at he
  split at he
  · cases he
  · rw [List.mem_singleton] at he
    exact ⟨d, a, he⟩

/-- C6: in every successful `release_funds` the persisted write setting
`is_released = true` is the first effect, strictly before every external
transfer; in every successful `claim_refund` the persisted refund marker is
the first effect, strictly before the (non-empty) refund transfer. -/
theorem commit_before_transfer (s : State) (caller : Principal) (id : Nat)
    (s' : State) (fx : List Effect) :
    (release_funds s caller id = Except.ok (s', fx) →
      ∃ r rest, fx = Effect.storeRemittance r :: rest ∧ r.is_released = true ∧
        ∀ e ∈ rest, ∃ dest amount, e = Effect.transfer dest amount) ∧
    (claim_refund s caller id = Except.ok (s', fx) →
      ∃ rest, fx = Effect.markRefundClaimed id caller :: rest ∧ rest ≠ [] ∧
        ∀ e ∈ rest, ∃ dest amount, e = Effect.transfer dest amount) := by
  constructor
  · intro hok
    unfold release_funds at hok
    repeat' split at hok
    all_goals try exact Except.noConfusion hok
    rename_i hpause xo r hr hrecip hrel hcan htar xf fee hfee hle
    injection hok with h1
    have h2 : fx = Effect.storeRemittance { r with is_released := true } ::
        (transfer_cspr s.feeCollector fee ++
         transfer_cspr r.recipient (r.current_amount - fee)) := by
      have := congrArg Prod.snd h1
      exact this.symm
    refine ⟨{ r with is_released := true },
      transfer_cspr s.feeCollector fee ++
        transfer_cspr r.recipient (r.current_amount - fee), h2, rfl, ?_⟩
    intro e he
    rcases List.mem_append.mp he with h | h
    · exact transfer_cspr_all_transfers _ _ e h
    · exact transfer_cspr_all_transfers _ _ e h
  · intro hok
    unfold claim_refund at hok
    repeat' split at hok
    all_goals try exact Except.noConfusion hok
    rename_i hpause xo r hr hcan hcz hmk
    injection hok with h1
    have h2 : fx = Effect.markRefundClaimed id caller ::
        transfer_cspr caller (s.contributions id caller) := by
      have := congrArg Prod.snd h1
      exact this.symm
    refine ⟨transfer_cspr caller (s.contributions id caller), h2, ?_, ?_⟩
    · unfold transfer_cspr
      rw [if_neg hcz]
      exact List.cons_ne_nil _ _
    · intro e he
      exact transfer_cspr_all_transfers _ _ e he

/-- C6 witness: the concrete release in `demoS2` commits the released record
first and only then transfers, and analogously for the refund claim in
`demoS3`. -/
theorem commit_before_transfer_witness :
    ∃ r rest, [Effect.storeRemittance demoRecReleased, Effect.transfer 2 5] =
      Effect.storeRemittance r :: rest ∧ r.is_released = true ∧
      ∀ e ∈ rest, ∃ dest amount, e = Effect.transfer dest amount :=
  (commit_before_transfer demoS2 2 1 (store_remittance demoS2 demoRecReleased)
    [Effect.storeRemittance demoRecReleased, Effect.transfer 2 5]).1 rfl

/-- C1: in every reachable state no record has both terminal flags set; a
record with a terminal flag set is left exactly unchanged by every further
successful operation; and an attempted state transition on such a record —
contribute with a non-zero amount, release by the recipient, cancel by the
creator, on an unpaused contract — fails with the state-conflict error
matching the flag (`AlreadyReleased` when released, else
`RemittanceCancelled`). -/
theorem terminal_flags_invariant (s : State) (h : Reachable s) :
    (∀ id r, s.remittances id = some r →
      ¬(r.is_released = true ∧ r.is_cancelled = true)) ∧
    (∀ s' id r, Step s s' → s.remittances id = some r →
      (r.is_released = true ∨ r.is_cancelled = true) →
      s'.remittances id = some r) ∧
    (∀ caller id r amount, s.paused = false → s.remittances id = some r →
      amount ≠ 0 → (r.is_released = true ∨ r.is_cancelled = true) →
      contribute s caller id amount = Except.error
        (if r.is_released then Error.AlreadyReleased else Error.RemittanceCancelled) ∧
      (caller = r.recipient → release_funds s caller id = Except.error
        (if r.is_released then Error.AlreadyReleased else Error.RemittanceCancelled)) ∧
      (caller = r.creator → cancel_remittance s caller id = Except.error
        (if r.is_released then Error.AlreadyReleased else Error.RemittanceCancelled))) := by
  have hinv := reachable_inv h
  refine ⟨hinv.notBoth, ?_, ?_⟩
  · intro s' id r hst hr hflag
    exact (step_frozen hinv hst hr hflag).1
  · intro caller id r amount hp hr hnz hflag
    have hp' : ¬(s.paused = true) := fun hq => by
      rw [hp] at hq; exact Bool.noConfusion hq
    refine ⟨?_, ?_, ?_⟩
    · unfold contribute
      simp only [if_neg hp', if_neg hnz, hr]
      cases hrl : r.is_released with
      | true => simp [hrl]
      | false =>
        rcases hflag with hf | hf
        · rw [hrl] at hf; exact Bool.noConfusion hf
        · simp [hrl, hf]
    · intro hcr
      unfold release_funds
      simp only [if_neg hp', hr]
      rw [if_pos hcr]
      cases hrl : r.is_released with
      | true => simp [hrl]
      | false =>
        rcases hflag with hf | hf
        · rw [hrl] at hf; exact Bool.noConfusion hf
        · simp [hrl, hf]
    · intro hcc
      unfold cancel_remittance
      simp only [if_neg hp', hr]
      rw [if_pos hcc]
      cases hrl : r.is_released with
      | true => simp [hrl]
      | false =>
        rcases hflag with hf | hf
        · rw [hrl] at hf; exact Bool.noConfusion hf
        · simp [hrl, hf]

/-- C1 witness: on the concretely cancelled remittance of `demoS3`, a
contribution attempt fails with `RemittanceCancelled` and a further
successful operation (the refund claim leading to `demoS4`) leaves the
cancelled record unchanged. -/
theorem terminal_flags_invariant_witness :
    contribute demoS3 7 1 4 = Except.error Error.RemittanceCancelled ∧
    demoS4.remittances 1 = some demoRecCancelled := by
  have h := terminal_flags_invariant demoS3 demoS3_reachable
  constructor
  · have h3 := (h.2.2 7 1 demoRecCancelled 4 rfl rfl (by decide) (Or.inr rfl)).1
    exact h3
  · have hstep : Step demoS3 demoS4 := ⟨Op.claimRefund 3 1, _, rfl, rfl⟩
    exact h.2.1 demoS4 1 demoRecCancelled hstep rfl (Or.inr rfl)

/-- Characterization of a successful `contribute`: the preconditions that
must have held and the exact state and effect-trace produced. -/
theorem contribute_ok_spec {s : State} {caller : Principal} {id amount : Nat}
    {s' : State} {fx : List Effect} (h : StateInv s)
    (hok : contribute s caller id amount = Except.ok (s', fx)) :
    ∃ r, s.remittances id = some r ∧ s.paused = false ∧ amount ≠ 0 ∧
      r.is_released = false ∧ r.is_cancelled = false ∧
      r.current_amount + amount < U512_LIMIT ∧
      (∀ i, s'.remittances i =
        if i = id then some { r with current_amount := r.current_amount + amount }
        else s.remittances i) ∧
      (∀ i q, s'.contributions i q =
        if i = id ∧ q = caller then s.contributions id caller + amount
        else s.contributions i q) ∧
      (∀ i q, s'.refundClaimed i q = s.refundClaimed i q) ∧
      s'.counter = s.counter ∧ s'.feeBps = s.feeBps ∧ s'.paused = s.paused ∧
      fx = Effect.receivePayment amount ::
        Effect.storeRemittance { r with current_amount := r.current_amount + amount } ::
        Effect.storeContribution id caller amount ::
        (if caller ∈ s.contributors id then [] else [Effect.addContributor id caller]) := by
  unfold contribute at hok
  repeat' split at hok
  all_goals try exact Except.noConfusion hok
  rename_i hpause hza xo r hr hrel hcan hov xs s2 hs2
  have hid : r.id = id := h.idMatch id r hr
  subst hid
  unfold store_contribution at hs2
  split at hs2
  · injection hs2 with h2
    subst h2
    injection hok with h1
    rw [Prod.mk.injEq] at h1
    obtain ⟨ha, hb⟩ := h1
    subst ha
    refine ⟨r, hr, ?_, hza, ?_, ?_, hov, ?_, ?_, ?_, ?_, ?_, ?_, ?_⟩
    · cases hb2 : s.paused with
      | false => rfl
      | true => exact absurd hb2 hpause
    · cases hb2 : r.is_released with
      | false => rfl
      | true => exact absurd hb2 hrel
    · cases hb2 : r.is_cancelled with
      | false => rfl
      | true => exact absurd hb2 hcan
    · intro i
      unfold add_contributor
      split <;> rfl
    · intro i q
      unfold add_contributor
      split <;> rfl
    · intro i q
      unfold add_contributor
      split <;> rfl
    · unfold add_contributor
      split <;> rfl
    · unfold add_contributor
      split <;> rfl
    · unfold add_contributor
      split <;> rfl
    · rw [← hb]
      unfold add_contributor
      split
    
      · next hmem =>
        rw [if_pos (show caller ∈ s.contributors r.id from hmem)]
      · next hnmem =>
        rw [if_neg (show caller ∉ s.contributors r.id from hnmem)]
  · exact Except.noConfusion hs2

/-- Characterization of a successful `claim_refund`: the preconditions that
must have held and the exact state and effect-trace produced. -/
theorem claim_refund_ok_spec {s : State} {caller : Principal} {id : Nat}
    {s' : State} {fx : List Effect}
    (hok : claim_refund s caller id = Except.ok (s', fx)) :
    ∃ r, s.paused = false ∧ s.remittances id = some r ∧ r.is_cancelled = true ∧
      s.contributions id caller ≠ 0 ∧ s.refundClaimed id caller = false ∧
      s' = mark_refund_claimed s id caller ∧
      fx = Effect.markRefundClaimed id caller ::
        transfer_cspr caller (s.contributions id caller) := by
  unfold claim_refund at hok
  repeat' split at hok
  all_goals try exact Except.noConfusion hok
  rename_i hpause xo r hr hcan hcz hmk
  injection hok with h1
  rw [Prod.mk.injEq] at h1
  obtain ⟨ha, hb⟩ := h1
  refine ⟨r, ?_, hr, hcan, hcz, ?_, ha.symm, hb.symm⟩
  · cases hb2 : s.paused with
    | false => rfl
    | true => exact absurd hb2 hpause
  · cases hb2 : s.refundClaimed id caller with
    | false => rfl
    | true => exact absurd hb2 hmk

/-- C2: in every reachable state the contribution ledger of each stored
remittance sums (over its recorded contributors) exactly to the record's
`current_amount`; a successful `contribute` adds the same amount to both the
record's `current_amount` and the caller's ledger entry; and a successful
`claim_refund` changes neither the records nor the ledger. -/
theorem ledger_sum_invariant (s : State) (h : Reachable s) :
    (∀ id r, s.remittances id = some r → contribSum s id = r.current_amount) ∧
    (∀ caller id amount s' fx r r',
      contribute s caller id amount = Except.ok (s', fx) →
      s.remittances id = some r → s'.remittances id = some r' →
      r'.current_amount = r.current_amount + amount ∧
      s'.contributions id caller = s.contributions id caller + amount) ∧
    (∀ caller id s' fx, claim_refund s caller id = Except.ok (s', fx) →
      s'.remittances = s.remittances ∧ s'.contributions = s.contributions) := by
  have hinv := reachable_inv h
  refine ⟨hinv.sumEq, ?_, ?_⟩
  · intro caller id amount s' fx r r' hok hr hr'
    obtain ⟨r0, hr0, _, _, _, _, _, hrem, hcontrib, _⟩ := contribute_ok_spec hinv hok
    rw [hr] at hr0
    injection hr0 with h3
    subst h3
    constructor
    · rw [hrem id, if_pos rfl] at hr'
      injection hr' with h4
      rw [← h4]
    · rw [hcontrib id caller, if_pos ⟨rfl, rfl⟩]
  · intro caller id s' fx hok
    obtain ⟨r0, _, _, _, _, _, ha, _⟩ := claim_refund_ok_spec hok
    subst ha
    exact ⟨rfl, rfl⟩

/-- C2 witness: in the concrete state `demoS2` the single contributor's
ledger entry sums to the record's `current_amount`. -/
theorem ledger_sum_invariant_witness : contribSum demoS2 1 = 5 :=
  (ledger_sum_invariant demoS2 demoS2_reachable).1 1
    { demoRecCancelled with is_cancelled := false } rfl

/-- C5: on an unpaused contract with a stored record, `claim_refund` fails
with `NotCancelled` when the record is not cancelled, with `NoContribution`
when (cancelled and) the caller's ledger entry is zero, and with
`RefundAlreadyClaimed` when the refund marker is already set; a successful
claim sets the marker, and after it every later `claim_refund` by the same
caller for the same id — after any sequence of successful operations —
fails with `RefundAlreadyClaimed` (when not paused), so no contributor is
ever paid twice. -/
theorem refund_at_most_once (s : State) (h : Reachable s) (hp : s.paused = false)
    (caller : Principal) (id : Nat) (r : Remittance)
    (hr : s.remittances id = some r) :
    (r.is_cancelled = false →
      claim_refund s caller id = Except.error Error.NotCancelled) ∧
    (r.is_cancelled = true → s.contributions id caller = 0 →
      claim_refund s caller id = Except.error Error.NoContribution) ∧
    (r.is_cancelled = true → s.contributions id caller ≠ 0 →
      s.refundClaimed id caller = true →
      claim_refund s caller id = Except.error Error.RefundAlreadyClaimed) ∧
    (∀ s' fx, claim_refund s caller id = Except.ok (s', fx) →
      s'.refundClaimed id caller = true ∧
      ∀ s'', Steps s' s'' → s''.paused = false →
        claim_refund s'' caller id = Except.error Error.RefundAlreadyClaimed) := by
  have hinv := reachable_inv h
  have hp' : ¬(s.paused = true) := fun hq => by
    rw [hp] at hq; exact Bool.noConfusion hq
  refine ⟨?_, ?_, ?_, ?_⟩
  · intro hcan
    unfold claim_refund
    simp only [if_neg hp', hr]
    rw [if_neg (fun hq => by rw [hcan] at hq; exact Bool.noConfusion hq)]
  · intro hcan hc0
    unfold claim_refund
    simp only [if_neg hp', hr]
    rw [if_pos hcan, if_pos hc0]
  · intro hcan hcz hmk
    unfold claim_refund
    simp only [if_neg hp', hr]
    rw [if_pos hcan, if_neg hcz, if_pos hmk]
  · intro s' fx hok
    obtain ⟨r0, _, hr0, hcan0, hcz0, _, ha, _⟩ := claim_refund_ok_spec hok
    rw [hr] at hr0
    injection hr0 with h3
    subst h3
    subst ha
    have hmark : (mark_refund_claimed s id caller).refundClaimed id caller = true := by
      show (if id = id ∧ caller = caller then true
        else s.refundClaimed id caller) = true
      rw [if_pos ⟨rfl, rfl⟩]
    refine ⟨hmark, ?_⟩
    intro s'' hsteps hp''
    have hstep : Step s (mark_refund_claimed s id caller) :=
      ⟨Op.claimRefund caller id, (mark_refund_claimed s id caller, fx), hok, rfl⟩
    have hinv' := inv_step hinv hstep
    have hr' : (mark_refund_claimed s id caller).remittances id = some r := hr
    obtain ⟨g1, g2, _⟩ := steps_frozen hinv' hsteps hr' (Or.inr hcan0)
    have hmk'' : s''.refundClaimed id caller = true := steps_marker hsteps hmark
    have hcz'' : s''.contributions id caller ≠ 0 := by
      rw [g2 caller]
      exact hcz0
    have hp2 : ¬(s''.paused = true) := fun hq => by
      rw [hp''] at hq; exact Bool.noConfusion hq
    unfold claim_refund
    simp only [if_neg hp2, g1]
    rw [if_pos hcan0, if_neg hcz'', if_pos hmk'']

/-- C5 witness: after the concrete refund claim leading to `demoS4`, a
second claim by the same contributor fails with `RefundAlreadyClaimed`. -/
theorem refund_at_most_once_witness :
    claim_refund demoS4 3 1 = Except.error Error.RefundAlreadyClaimed := by
  have h := (refund_at_most_once demoS3 demoS3_reachable rfl 3 1
    demoRecCancelled rfl).2.2.2 demoS4
    [Effect.markRefundClaimed 1 3, Effect.transfer 3 5] rfl
  exact h.2 demoS4 (Steps.refl demoS4) rfl

/-- A Bool that is not true is false. -/
theorem bool_eq_false {b : Bool} (h : ¬(b = true)) : b = false := by
  cases hb : b with
  | false => rfl
  | true => exact absurd hb h

/-- A false Bool is not true. -/
theorem bool_ne_true {b : Bool} (h : b = false) : ¬(b = true) := fun hq => by
  rw [h] at hq
  exact Bool.noConfusion hq

/-- C3 (amended): on an unpaused contract with the stored fee within its
500 bps bound, `release_funds` succeeds iff the record exists, the caller
is its recipient, it is active, the target is met AND the 512-bit fee
product `current_amount * fee_bps` does not overflow; otherwise it fails
with `RemittanceNotFound`, `Unauthorized`, `AlreadyReleased`,
`RemittanceCancelled`, `TargetNotMet` or `ArithmeticOverflow` respectively
(an error produces no successor state, so the record is unchanged). -/
theorem release_funds_conditions (s : State) (caller : Principal) (id : Nat)
    (hp : s.paused = false) (hfb : s.feeBps ≤ MAX_FEE_BPS) :
    ((∃ out, release_funds s caller id = Except.ok out) ↔
      ∃ r, s.remittances id = some r ∧ caller = r.recipient ∧
        r.is_released = false ∧ r.is_cancelled = false ∧
        r.target_amount ≤ r.current_amount ∧
        r.current_amount * s.feeBps < U512_LIMIT) ∧
    (s.remittances id = none →
      release_funds s caller id = Except.error Error.RemittanceNotFound) ∧
    (∀ r, s.remittances id = some r →
      (caller ≠ r.recipient →
        release_funds s caller id = Except.error Error.Unauthorized) ∧
      (caller = r.recipient → r.is_released = true →
        release_funds s caller id = Except.error Error.AlreadyReleased) ∧
      (caller = r.recipient → r.is_released = false → r.is_cancelled = true →
        release_funds s caller id = Except.error Error.RemittanceCancelled) ∧
      (caller = r.recipient → r.is_released = false → r.is_cancelled = false →
        r.current_amount < r.target_amount →
        release_funds s caller id = Except.error Error.TargetNotMet) ∧
      (caller = r.recipient → r.is_released = false → r.is_cancelled = false →
        r.target_amount ≤ r.current_amount →
        U512_LIMIT ≤ r.current_amount * s.feeBps →
        release_funds s caller id = Except.error Error.ArithmeticOverflow)) := by
  have hp' : ¬(s.paused = true) := bool_ne_true hp
  have h500 : s.feeBps ≤ 500 := hfb
  refine ⟨⟨?_, ?_⟩, ?_, ?_⟩
  · intro ⟨out, hok⟩
    unfold release_funds at hok
    repeat' split at hok
    all_goals try exact Except.noConfusion hok
    rename_i hpause xo r hr hrecip hrel hcan htar xf fee hfee hle
    refine ⟨r, hr, hrecip, bool_eq_false hrel, bool_eq_false hcan, by omega, ?_⟩
    unfold calculate_fee at hfee
    split at hfee
    · next hlt => exact hlt
    · exact Except.noConfusion hfee
  · intro ⟨r, hr, hrecip, hrel, hcan, htar, hovf⟩
    have hfee_le : r.current_amount * s.feeBps / 10000 ≤ r.current_amount := by
      have h1 : r.current_amount * s.feeBps ≤ r.current_amount * 10000 :=
        Nat.mul_le_mul_left r.current_amount (by omega)
      have h2 : r.current_amount * s.feeBps / 10000 ≤
          r.current_amount * 10000 / 10000 := Nat.div_le_div_right h1
      have h3 : r.current_amount * 10000 / 10000 = r.current_amount := by simp
      omega
    have hcf : calculate_fee r.current_amount s.feeBps =
        Except.ok (r.current_amount * s.feeBps / 10000) := by
      unfold calculate_fee
      rw [if_pos hovf]
    refine ⟨(store_remittance s { r with is_released := true },
      Effect.storeRemittance { r with is_released := true } ::
        (transfer_cspr s.feeCollector (r.current_amount * s.feeBps / 10000) ++
         transfer_cspr r.recipient
           (r.current_amount - r.current_amount * s.feeBps / 10000))), ?_⟩
    unfold release_funds
    simp only [if_neg hp', hr, hcf]
    rw [if_pos hrecip, if_neg (bool_ne_true hrel), if_neg (bool_ne_true hcan),
      if_neg (show ¬(r.current_amount < r.target_amount) by omega),
      if_pos hfee_le]
  · intro hnone
    unfold release_funds
    simp only [if_neg hp', hnone]
  · intro r hr
    refine ⟨?_, ?_, ?_, ?_, ?_⟩
    · intro hne
      unfold release_funds
      simp only [if_neg hp', hr]
      rw [if_neg hne]
    · intro hrecip hrel
      unfold release_funds
      simp only [if_neg hp', hr]
      rw [if_pos hrecip, if_pos hrel]
    · intro hrecip hrel hcan
      unfold release_funds
      simp only [if_neg hp', hr]
      rw [if_pos hrecip, if_neg (bool_ne_true hrel), if_pos hcan]
    · intro hrecip hrel hcan htar
      unfold release_funds
      simp only [if_neg hp', hr]
      rw [if_pos hrecip, if_neg (bool_ne_true hrel), if_neg (bool_ne_true hcan),
        if_pos htar]
    · intro hrecip hrel hcan htar hovf
      have hcf : calculate_fee r.current_amount s.feeBps =
          Except.error Error.ArithmeticOverflow := by
        unfold calculate_fee
        rw [if_neg (by omega)]
      unfold release_funds
      simp only [if_neg hp', hr, hcf]
      rw [if_pos hrecip, if_neg (bool_ne_true hrel), if_neg (bool_ne_true hcan),
        if_neg (show ¬(r.current_amount < r.target_amount) by omega)]

/-- C3 witness: in the concrete funded state `demoS2` the recipient's
release succeeds, as the amended conditions predict. -/
theorem release_funds_conditions_witness :
    ∃ out, release_funds demoS2 2 1 = Except.ok out :=
  (release_funds_conditions demoS2 2 1 rfl (by decide)).1.mpr
    ⟨{ demoRecCancelled with is_cancelled := false }, rfl, rfl, rfl, rfl,
      by decide, by decide⟩

/-- C3 counterexample: `demoBig` is reachable (`demoBig_reachable`), its
remittance 1 exists, the caller 2 is the recipient, the record is active,
unpaused, and the target is met — every condition of the claim — yet
`release_funds` does not succeed: the fee multiplication
`2 ^ 509 * 50` overflows `U512` and the call fails with
`ArithmeticOverflow`, an error the claim does not allow. -/
theorem release_funds_claim_counterexample :
    demoBig.paused = false ∧
    demoBig.remittances 1 = some demoRecBig ∧
    demoRecBig.recipient = 2 ∧
    demoRecBig.is_released = false ∧
    demoRecBig.is_cancelled = false ∧
    demoRecBig.target_amount ≤ demoRecBig.current_amount ∧
    release_funds demoBig 2 1 = Except.error Error.ArithmeticOverflow :=
  ⟨rfl, rfl, rfl, rfl, rfl, by decide, rfl⟩

/-- Dropping a prefix never lengthens a list. -/
theorem dropWhile_length_le (p : Char → Bool) (l : List Char) :
    (l.dropWhile p).length ≤ l.length := by
  induction l with
  | nil => exact Nat.le_refl _
  | cons a t ih =>
    rw [List.dropWhile_cons]
    split
    · exact Nat.le_succ_of_le ih
    · exact Nat.le_refl _

/-- Trimming never lengthens a string. -/
theorem trimChars_length_le (l : List Char) : (trimChars l).length ≤ l.length := by
  unfold trimChars
  rw [List.length_reverse]
  have h1 := dropWhile_length_le Char.isWhitespace
    ((l.dropWhile Char.isWhitespace).reverse)
  rw [List.length_reverse] at h1
  have h2 := dropWhile_length_le Char.isWhitespace l
  omega

/-- C8: with the other create preconditions satisfied (unpaused, non-zero
principals, positive target), a successful create implies the purpose is
1–256 units long after trimming, and create fails with `PurposeMaxLength`
exactly when the raw purpose exceeds 256 units or is empty after trimming
(in particular any 257-unit purpose is rejected). -/
theorem create_purpose_validation (s : State) (caller recipient : Principal)
    (target : Nat) (purpose : List Char) (ts : Nat)
    (hp : s.paused = false) (hrcp : recipient ≠ 0) (hc : caller ≠ 0)
    (ht : target ≠ 0) :
    (∀ out, create_remittance s caller recipient target purpose ts = Except.ok out →
      1 ≤ (trimChars purpose).length ∧
      (trimChars purpose).length ≤ MAX_PURPOSE_LENGTH) ∧
    (create_remittance s caller recipient target purpose ts =
        Except.error Error.PurposeMaxLength ↔
      (MAX_PURPOSE_LENGTH < purpose.length ∨ trimChars purpose = [])) := by
  have hp' : ¬(s.paused = true) := bool_ne_true hp
  constructor
  · intro out hok
    unfold create_remittance at hok
    repeat' split at hok
    all_goals try exact Except.noConfusion hok
    rename_i hlen htrim hcnt
    constructor
    · have := List.length_pos.mpr htrim
      omega
    · have hmono := trimChars_length_le purpose
      have hML : ¬(MAX_PURPOSE_LENGTH < purpose.length) := hlen
      omega
  · constructor
    · intro herr
      unfold create_remittance at herr
      rw [if_neg hp', if_neg hrcp, if_neg hc, if_neg ht] at herr
      by_cases hlen : MAX_PURPOSE_LENGTH < purpose.length
      · exact Or.inl hlen
      · rw [if_neg hlen] at herr
        by_cases htr : trimChars purpose = []
        · exact Or.inr htr
        · rw [if_neg htr] at herr
          split at herr
          · exact Except.noConfusion herr
          · injection herr with hco
            exact Error.noConfusion hco
    · intro hcond
      unfold create_remittance
      rw [if_neg hp', if_neg hrcp, if_neg hc, if_neg ht]
      by_cases hlen : MAX_PURPOSE_LENGTH < purpose.length
      · rw [if_pos hlen]
      · rw [if_neg hlen]
        rcases hcond with hl | htr
        · exact absurd hl hlen
        · rw [if_pos htr]

/-- C8 witness: a 257-character purpose is rejected with
`PurposeMaxLength`. -/
theorem create_purpose_validation_witness :
    create_remittance demoS0 1 2 5 (List.replicate 257 'a') 0 =
      Except.error Error.PurposeMaxLength :=
  ((create_purpose_validation demoS0 1 2 5 (List.replicate 257 'a') 0 rfl
    (by decide) (by decide) (by decide)).2).mpr
    (Or.inl (by rw [List.length_replicate]; decide))

/-- C9 counterexample: on a remittance whose amounts exceed `2 ^ 64` the
source's `as_u64` conversion panics — modelled as `none` — so
`progress_percentage` returns NO value at all; it does not truncate to 64
bits and return a wrong value as the claim asserts. -/
theorem progress_percentage_claim_counterexample :
    U64_LIMIT < demoRecHuge.current_amount ∧
    U64_LIMIT < demoRecHuge.target_amount ∧
    demoRecHuge.progress_percentage = none :=
  ⟨by decide, by decide, rfl⟩

/-- C9 (amended): `progress_percentage` never truncates — for every
remittance with a non-zero target whose current amount or target reaches
`2 ^ 64`, the `as_u64` conversion panics (the call traps, modelled as
`none`) instead of returning a value; the misreporting that does exist is
the u64 `saturating_mul` below `2 ^ 64`: with
`current = target = 2 ^ 63` the code reports 1 percent while the
full-precision result is 100. -/
theorem progress_percentage_amended :
    (∀ r : Remittance, r.target_amount ≠ 0 →
      (U64_LIMIT ≤ r.current_amount ∨ U64_LIMIT ≤ r.target_amount) →
      r.progress_percentage = none) ∧
    (demoRecSat.progress_percentage = some 1 ∧
      full_precision_progress demoRecSat = 100) := by
  refine ⟨?_, rfl, rfl⟩
  intro r ht hbig
  unfold Remittance.progress_percentage
  rw [if_neg ht]
  rcases hbig with hcur | htar
  · have hc : as_u64 r.current_amount = none := by
      unfold as_u64
      rw [if_neg (by omega)]
    simp only [hc]
  · have htg : as_u64 r.target_amount = none := by
      unfold as_u64
      rw [if_neg (by omega)]
    cases hcu : as_u64 r.current_amount with
    | none => simp only [hcu]
    | some cu => simp only [hcu, htg]

/-- C9 witness: a remittance with a `2 ^ 65` target traps (no value) in
`progress_percentage`. -/
theorem progress_percentage_amended_witness :
    demoRecHugeTarget.progress_percentage = none :=
  progress_percentage_amended.1 demoRecHugeTarget (by decide) (Or.inr (by decide))
